import Mathlib

/-!
Verification of the tunnel data plane of the appium-ios-tuntap repository.

The definitions below are shallow embeddings of the TypeScript and C++
sources:

* `processBuffer`, `l4Record`, `formatIPv6Address`, `feedChunks` embed
  `TunnelManager.processBuffer` and `formatIPv6Address` from
  `src/tunnel.ts` (the stateful IPv6 demultiplexer loop and the address
  stringifier).
* `encodeFrame`, `hsStep`, `runHandshake` embed the CDTunnel handshake
  codec of `exchangeCoreTunnelParameters` in `src/tunnel.ts` (frame
  construction, the `handleData`/`handleEnd`/`handleError`/timeout
  handlers, and `cleanup`).
* `darwinRead`, `darwinWriteWire`, `darwinWriteResult` embed the
  `__APPLE__` branches of `TunDevice::Read` / `TunDevice::Write` in
  `src/tuntap.cc`.
* `configureCmds` embeds `TunTap.configure` from `src/TunTap.ts` as the
  sequence of shell commands handed to `execPromise`.
* `tsOpen` / `tsClose` embed `TunTap.open` / `TunTap.close` from
  `src/TunTap.ts` layered over the native `TunDevice::Open`/`Close`
  state of `src/tuntap.cc` (a successful device environment is assumed,
  so the native open acquires a device and returns true).
* `pullStep` embeds the async-generator protocol of
  `TunnelManager.getPacketStream` together with `stop()`'s effect on it
  (consumer cleared, cancellation set, pending resolver left unresolved);
  the generator's consumer is modelled as eager, i.e. each `yield` is
  immediately followed by the next `next()` call.
* `stopCallM` / `performStop` / `mgrStep` embed `TunnelManager.stop` and
  `_performStop` (which contains no `await`, so a `stop()` call is atomic
  on the single-threaded event loop) plus the other manager operations.

Node `Buffer` values are modelled as `List Nat` of byte values;
JavaScript `buffer.readUInt16BE(i)` is `readU16`, `buffer.slice(a, b)`
is `(·.drop a).take (b - a)` (or `·.take b` when `a = 0`), and
`Buffer.concat` is `++`.  `JSON.parse`/`JSON.stringify` are Node
builtins external to this repository; they appear abstractly as a
`parse : List Nat → Option α` parameter, and the handshake round-trip
takes `parse p = some j` — the stringify/parse contract — as a
hypothesis.
-/

namespace Tuntap

/-- JavaScript `buffer.readUInt16BE(i)`: big-endian 16-bit read at offset
`i`. On a Node `Buffer` the two entries are bytes, so
`(hi << 8) | lo = 256 * hi + lo`. -/
def readU16 (l : List Nat) (i : Nat) : Nat :=
  256 * l.getD i 0 + l.getD (i + 1) 0

/-- JavaScript `n.toString(16)` for a non-negative integer: lowercase
hexadecimal digits, no zero padding (`0` renders as `"0"`). -/
def jsHexStr (n : Nat) : String :=
  ⟨Nat.toDigits 16 n⟩

/-- JavaScript `parts.join(':')` on an array of strings. -/
def joinColon : List String → String
  | [] => ""
  | [s] => s
  | s :: rest => s ++ ":" ++ joinColon rest

/-- `formatIPv6Address` from `src/tunnel.ts`: a 16-byte slice renders as
the eight colon-joined big-endian 16-bit groups in lowercase hex; any
other length yields the `"invalid-address"` sentinel. -/
def formatIPv6Address (l : List Nat) : String :=
  if l.length ≠ 16 then "invalid-address"
  else joinColon ((List.range 8).map (fun i => jsHexStr (readU16 l (2 * i))))

/-- The `protocol` field of a `PacketData` record. -/
inductive Proto where
  | udp
  | tcp
deriving DecidableEq

/-- The `PacketData` record published to packet consumers
(`src/tunnel.ts`). -/
structure PacketRecord where
  protocol : Proto
  src : String
  dst : String
  sourcePort : Nat
  destPort : Nat
  payload : List Nat
deriving DecidableEq

/-- The L4 parsing performed on one complete IPv6 packet inside the
`processBuffer` loop of `src/tunnel.ts` (UDP branch `nextHeader === 17`,
TCP branch `nextHeader === 6`): the published record, or `none` when the
packet is only forwarded without a fanout event. -/
def l4Record (packet : List Nat) : Option PacketRecord :=
  let src := formatIPv6Address ((packet.drop 8).take 16)
  let dst := formatIPv6Address ((packet.drop 24).take 16)
  let nextHeader := packet.getD 6 0
  if nextHeader = 17 then
    let payload := packet.drop 40
    if payload.length < 8 then none
    else some { protocol := .udp, src := src, dst := dst,
                sourcePort := readU16 payload 0, destPort := readU16 payload 2,
                payload := payload.drop 8 }
  else if nextHeader = 6 then
    if packet.length < 40 + 20 then none
    else
      let sourcePort := readU16 packet 40
      let destPort := readU16 packet 42
      let dataOffsetByte := packet.getD 52 0
      let tcpHeaderLength := (dataOffsetByte >>> 4) * 4
      if packet.length < 40 + tcpHeaderLength then none
      else some { protocol := .tcp, src := src, dst := dst,
                  sourcePort := sourcePort, destPort := destPort,
                  payload := packet.drop (40 + tcpHeaderLength) }
  else none

/-- One emission of the demultiplexer: the packet written to the TUN
interface (`this.tun.write(packet)`) together with the record published
to the packet consumers (if any). -/
abbrev Emit := List Nat × Option PacketRecord

/-- Fuel-indexed body of the `processBuffer` loop of `src/tunnel.ts`.
Each iteration consumes at least one byte of the buffer, so any fuel
`≥ buf.length` computes the loop exactly (`processBufferAux_irrel`); the
structural fuel keeps the definition kernel-reducible. -/
def processBufferAux : Nat → List Nat → List Emit × List Nat
  | fuel, buf =>
    if buf.length < 40 then ([], buf)
    else
      match fuel with
      | 0 => ([], buf)
      | f + 1 =>
        if ((buf.getD 0 0 >>> 4) &&& 15) ≠ 6 then
          -- version nibble ≠ 6: `offset++` (resynchronization)
          processBufferAux f (buf.drop 1)
        else
          let payloadLength := readU16 buf 4
          if buf.length < 40 + payloadLength then ([], buf)
          else
            let packet := buf.take (40 + payloadLength)
            let r := processBufferAux f (buf.drop (40 + payloadLength))
            ((packet, l4Record packet) :: r.1, r.2)

/-- `TunnelManager.processBuffer` from `src/tunnel.ts` as a pure
function: given the demux buffer, returns the list of emissions (packet
written to the interface paired with the record published) and the
retained buffer suffix. -/
def processBuffer (buf : List Nat) : List Emit × List Nat :=
  processBufferAux buf.length buf

/-- A well-formed IPv6 datagram in the sense of claim C1: a byte
sequence of at least 40 bytes whose version nibble is 6 and whose header
payload-length field equals the actual payload size. -/
def wfDatagram (d : List Nat) : Prop :=
  40 ≤ d.length ∧
  ((d.getD 0 0 >>> 4) &&& 15) = 6 ∧
  readU16 d 4 = d.length - 40 ∧
  ∀ b ∈ d, b < 256

instance (d : List Nat) : Decidable (wfDatagram d) := by
  unfold wfDatagram
  infer_instance

/-- The ingress path of `TunnelManager.startForwarding`: each incoming
chunk is appended to the retained buffer (`Buffer.concat`) and
`processBuffer` runs; emissions accumulate across chunks. The second
component is the final retained buffer. -/
def feedChunks : List (List Nat) → List Nat → List Emit × List Nat
  | [], buf => ([], buf)
  | c :: cs, buf =>
    let r := processBuffer (buf ++ c)
    let r' := feedChunks cs r.2
    (r.1 ++ r'.1, r'.2)

/-- The ASCII bytes of the `'CDTunnel'` magic string. -/
def cdMagicBytes : List Nat := [67, 68, 84, 117, 110, 110, 101, 108]

/-- `length.writeUInt16BE(n)`: the two big-endian bytes of a 16-bit
length field. -/
def be16 (n : Nat) : List Nat := [(n >>> 8) &&& 255, n &&& 255]

/-- The frame built by `exchangeCoreTunnelParameters`
(`Buffer.concat([magic, length, jsonBuffer])`). -/
def encodeFrame (p : List Nat) : List Nat := cdMagicBytes ++ be16 p.length ++ p

/-- The handshake deadline passed to `setTimeout` in
`exchangeCoreTunnelParameters`. -/
def handshakeTimeoutMs : Nat := 30000

/-- Terminal outcome of the handshake promise: `resolve(response)` or the
various `reject(...)` calls of `exchangeCoreTunnelParameters`. -/
inductive HsOutcome (α : Type) where
  | resolvedJson (a : α)
  | invalidFormat
  | invalidJson
  | connClosed
  | socketErr
  | timedOut
deriving DecidableEq

/-- State of one `exchangeCoreTunnelParameters` call: the response
accumulator, whether the three stream listeners are still attached
(`cleanup` removes all of them together), whether the 30 s timer is
still pending, and the promise outcome. -/
structure HsState (α : Type) where
  buffer : List Nat
  listening : Bool
  timerActive : Bool
  outcome : Option (HsOutcome α)
deriving DecidableEq

/-- Events delivered to the handshake: a socket `'data'` chunk, the
socket `'end'` and `'error'` events, and the 30-second timer firing. -/
inductive HsEvent where
  | dataEv (chunk : List Nat)
  | endEv
  | errEv
  | timeoutEv

/-- `cleanup()` from `exchangeCoreTunnelParameters`: removes the data,
error and end listeners and clears the timeout. -/
def hsCleanup {α : Type} (s : HsState α) : HsState α :=
  { s with listening := false, timerActive := false }

/-- Handshake state right after the request is written and the listeners
are installed. -/
def hsInit (α : Type) : HsState α := ⟨[], true, true, none⟩

/-- One handler invocation of `exchangeCoreTunnelParameters`: `handleData`
(accumulate, magic check once ≥ 10 bytes, then wait for `10 + length`
bytes and JSON-parse the payload), `handleEnd`, `handleError`, and the
timeout callback. Handlers only run while their listeners are attached;
the timer only fires while pending. `parse` stands for `JSON.parse`. -/
def hsStep {α : Type} (parse : List Nat → Option α) : HsEvent → HsState α → HsState α
  | .dataEv c, s =>
    if s.listening then
      let b := s.buffer ++ c
      if b.length < 10 then { s with buffer := b }
      else if b.take 8 ≠ cdMagicBytes then
        { hsCleanup s with buffer := b, outcome := some .invalidFormat }
      else
        let total := 10 + readU16 b 8
        if total ≤ b.length then
          match parse ((b.take total).drop 10) with
          | some a => { hsCleanup s with buffer := b, outcome := some (.resolvedJson a) }
          | none => { hsCleanup s with buffer := b, outcome := some .invalidJson }
        else { s with buffer := b }
    else s
  | .endEv, s => if s.listening then { hsCleanup s with outcome := some .connClosed } else s
  | .errEv, s => if s.listening then { hsCleanup s with outcome := some .socketErr } else s
  | .timeoutEv, s => if s.timerActive then { hsCleanup s with outcome := some .timedOut } else s

/-- A run of the handshake receiver over a sequence of `'data'` chunks. -/
def runHandshake {α : Type} (parse : List Nat → Option α) (chunks : List (List Nat)) : HsState α :=
  chunks.foldl (fun s c => hsStep parse (.dataEv c) s) (hsInit α)

/-- A `JSON.parse` stand-in that fails on every payload (used to witness
the malformed-JSON failure path). -/
def noParse : List Nat → Option (List Nat) := fun _ => none

/-- Result of the `read(2)` syscall in `TunDevice::Read` (`__APPLE__`
branch): either a byte string (length = the syscall's return value when
non-negative) or a `-1` failure; `errno` is modelled separately since the
code consults it whenever the return value is ≤ 0. -/
inductive KernelRead where
  | bytes (bs : List Nat)
  | failed
deriving DecidableEq

/-- Value returned to JavaScript by `TunDevice::Read`: an empty buffer, a
data buffer, or a `Napi::Error` object returned as a value. -/
inductive DarwinReadResult where
  | empty
  | data (bs : List Nat)
  | errorValue
deriving DecidableEq

/-- The `__APPLE__` branch of `TunDevice::Read` in `src/tuntap.cc`:
`bytes_read <= 0` consults errno (`EAGAIN`/`EWOULDBLOCK` → empty buffer,
otherwise an error value); `bytes_read > 4` strips the 4-byte protocol
family prefix; `1..4` bytes yield an empty buffer. -/
def darwinRead (k : KernelRead) (errnoWouldBlock : Bool) : DarwinReadResult :=
  match k with
  | .failed => if errnoWouldBlock then .empty else .errorValue
  | .bytes bs =>
    if bs.length = 0 then (if errnoWouldBlock then .empty else .errorValue)
    else if 4 < bs.length then .data (bs.drop 4)
    else .empty

/-- `htonl(AF_INET6)` on Darwin: the 4-byte big-endian representation of
protocol family 30. -/
def afInet6Bytes : List Nat := [0, 0, 0, 30]

/-- The bytes handed to the `write(2)` syscall by the `__APPLE__` branch
of `TunDevice::Write`: the 4-byte family header followed by the payload. -/
def darwinWriteWire (payload : List Nat) : List Nat := afInet6Bytes ++ payload

/-- Value returned to JavaScript by `TunDevice::Write`. -/
inductive DarwinWriteResult where
  | count (n : Nat)
  | errorValue
deriving DecidableEq

/-- The return-value computation of the `__APPLE__` branch of
`TunDevice::Write`: a failed syscall yields an error value; otherwise the
returned count excludes the 4 header bytes
(`bytes_written > 4 ? bytes_written - 4 : 0`). -/
def darwinWriteResult (kernelReturn : Option Nat) : DarwinWriteResult :=
  match kernelReturn with
  | none => .errorValue
  | some n => if 4 < n then .count (n - 4) else .count 0

/-- `process.platform` as seen by `TunTap.configure`. -/
inductive Platform where
  | darwin
  | linux
  | otherOS
deriving DecidableEq

/-- The errors `TunTap.configure` can raise before reaching `execPromise`:
`'Device not open'` and `'Unsupported platform'`. The TypeScript code has
no invalid-argument error path. -/
inductive ConfigError where
  | deviceNotOpen
  | unsupportedPlatform
deriving DecidableEq

/-- `TunTap.configure` from `src/TunTap.ts` as the list of shell commands
it hands to `execPromise` (template literals written as concatenation).
The address and MTU are interpolated without any validation. -/
def configureCmds (isOpenFlag : Bool) (plat : Platform) (name addr : String) (mtu : Nat) :
    Except ConfigError (List String) :=
  if !isOpenFlag then .error .deviceNotOpen
  else match plat with
    | .darwin => .ok ["sudo ifconfig " ++ name ++ " inet6 " ++ addr ++ " prefixlen 64 up",
                      "sudo ifconfig " ++ name ++ " mtu " ++ toString mtu]
    | .linux => .ok ["sudo ip -6 addr add " ++ addr ++ "/64 dev " ++ name,
                     "sudo ip link set dev " ++ name ++ " up mtu " ++ toString mtu]
    | .otherOS => .error .unsupportedPlatform

/-- Native `TunDevice` state (`src/tuntap.cc`): the `is_open` flag and a
count of how many times the open path acquired a kernel device. -/
structure DevState where
  isOpenNative : Bool
  acquisitions : Nat
deriving DecidableEq

/-- The TypeScript `TunTap` wrapper state (`src/TunTap.ts`): the private
`isOpen` flag over the native device. The class has no `closed` flag. -/
structure TunTapSt where
  dev : DevState
  isOpenTS : Bool
deriving DecidableEq

/-- `TunDevice::Open`: returns true immediately when already open,
otherwise acquires a device (assumed to succeed) and sets `is_open`. -/
def devOpen (d : DevState) : DevState × Bool :=
  if d.isOpenNative then (d, true)
  else ({ isOpenNative := true, acquisitions := d.acquisitions + 1 }, true)

/-- `TunDevice::Close`: closes the fd and clears `is_open` when open. -/
def devClose (d : DevState) : DevState :=
  if d.isOpenNative then { d with isOpenNative := false } else d

/-- `TunTap.open` from `src/TunTap.ts`:
`if (!this.isOpen) { this.isOpen = this.device.open(); } return this.isOpen`. -/
def tsOpen (s : TunTapSt) : TunTapSt × Bool :=
  if s.isOpenTS then (s, true)
  else
    let r := devOpen s.dev
    ({ dev := r.1, isOpenTS := r.2 }, r.2)

/-- `TunTap.close` from `src/TunTap.ts`:
`if (this.isOpen) { this.device.close(); this.isOpen = false; } return true`. -/
def tsClose (s : TunTapSt) : TunTapSt × Bool :=
  if s.isOpenTS then ({ dev := devClose s.dev, isOpenTS := false }, true)
  else (s, true)

/-- A freshly constructed `TunTap` (device not yet opened). -/
def tsInit : TunTapSt := ⟨⟨false, 0⟩, false⟩

/-- Where the `getPacketStream` async generator is suspended: not yet
started, awaiting the consumer-resolver promise on an empty queue, or
completed (its `finally` block has run). -/
inductive GenPhase where
  | idle
  | blocked
  | done
deriving DecidableEq

/-- Joint state of one `getPacketStream` iterator and the manager fields
it interacts with: the cancellation flag, whether the iterator's private
consumer is in `packetConsumers`, the iterator-private queue, the
generator phase, and the packets delivered to the `for await` consumer. -/
structure PullState where
  cancelled : Bool
  registered : Bool
  queue : List Nat
  phase : GenPhase
  yielded : List Nat
deriving DecidableEq

/-- The generator's `while (!this.cancelled)` loop resuming with an eager
consumer: when cancelled it exits and its `finally` removes the
consumer; otherwise it yields everything queued and suspends again on a
fresh resolver promise. -/
def drainLoop (s : PullState) : PullState :=
  if s.cancelled then { s with phase := .done, registered := false }
  else { s with yielded := s.yielded ++ s.queue, queue := [], phase := .blocked }

/-- Events acting on the iterator: the consumer starting the iteration,
a packet fanned out by `processBuffer`, and `TunnelManager.stop()`. -/
inductive PullEvent where
  | startIter
  | packetArrives (p : Nat)
  | stopCall
deriving DecidableEq

/-- One event of the `getPacketStream` protocol. `onPacket` resolves the
pending resolver (if any) or pushes onto the queue, and only runs while
the consumer is registered; `stop()` sets `cancelled`, clears
`packetConsumers`, and — as in `_performStop` — never resolves a pending
resolver, leaving a blocked generator suspended. -/
def pullStep : PullEvent → PullState → PullState
  | .startIter, s => drainLoop { s with registered := true }
  | .packetArrives p, s =>
    if s.registered then
      match s.phase with
      | .blocked => drainLoop { s with yielded := s.yielded ++ [p] }
      | _ => { s with queue := s.queue ++ [p] }
    else s
  | .stopCall, s => { s with cancelled := true, registered := false }

/-- A run of iterator events from a given state. -/
def runPull (evs : List PullEvent) (s : PullState) : PullState :=
  evs.foldl (fun s e => pullStep e s) s

/-- State with a fresh manager and a not-yet-started iterator. -/
def pullInit : PullState := ⟨false, false, [], .idle, []⟩

/-- `TunnelManager` state as touched by `stop`/`_performStop`
(`src/tunnel.ts`): cancellation flag, the cached cleanup promise (by id),
how many times `_performStop` ran, the read interval, the device
connection, the demux buffer length, the consumer count, the TUN handle,
and a fresh-promise counter. -/
structure MgrState where
  cancelled : Bool
  cleanupId : Option Nat
  performCount : Nat
  intervalActive : Bool
  connDestroyed : Bool
  bufLen : Nat
  consumers : Nat
  tunPresent : Bool
  nextId : Nat
deriving DecidableEq

/-- `_performStop`: sets cancellation, clears the read interval, destroys
the device connection, clears the buffer, clears the consumers, closes
and forgets the TUN device. It contains no `await`, so it runs
atomically within the `stop()` call. -/
def performStop (s : MgrState) : MgrState :=
  { s with cancelled := true, intervalActive := false, connDestroyed := true,
           bufLen := 0, consumers := 0, tunPresent := false,
           performCount := s.performCount + 1 }

/-- `stop()`: returns the cached cleanup promise if one exists, otherwise
runs `_performStop` and caches (and returns) the new promise. -/
def stopCallM (s : MgrState) : MgrState × Nat :=
  match s.cleanupId with
  | some pid => (s, pid)
  | none => ({ performStop s with cleanupId := some s.nextId, nextId := s.nextId + 1 }, s.nextId)

/-- The manager operations relevant to the cancellation-monotonicity
claim: `stop()`, the socket `'data'` handler (which returns early when
cancelled, otherwise grows the demux buffer and processes it), the 5 ms
read tick (which mutates no manager field), and
`addPacketConsumer`/`removePacketConsumer`. -/
inductive MgrOp where
  | stopOp
  | dataArrives (n : Nat)
  | pollTick
  | addConsumerOp
  | removeConsumerOp

/-- One manager operation. No operation ever clears `cancelled`. -/
def mgrStep : MgrOp → MgrState → MgrState
  | .stopOp, s => (stopCallM s).1
  | .dataArrives n, s => if s.cancelled then s else { s with bufLen := s.bufLen + n }
  | .pollTick, s => s
  | .addConsumerOp, s => { s with consumers := s.consumers + 1 }
  | .removeConsumerOp, s => { s with consumers := s.consumers - 1 }

/-- `stop()` called `n` times in sequence; returns the final state and
the list of promise ids handed back to the callers. -/
def stopTimes : Nat → MgrState → MgrState × List Nat
  | 0, s => (s, [])
  | n + 1, s =>
    let r := stopCallM s
    let r2 := stopTimes n r.1
    (r2.1, r.2 :: r2.2)

/-- A concrete 48-byte IPv6/UDP datagram (spec scenario 2): version 6,
payload length 8, next header 17, src `fd00::2`, dst `fd00::1`, source
port 1234, destination port 5678, empty UDP payload. -/
def d48 : List Nat :=
  [96, 0, 0, 0, 0, 8, 17, 64,
   253, 0, 0, 0, 0, 0, 0, 0, 0, 0, 0, 0, 0, 0, 0, 2,
   253, 0, 0, 0, 0, 0, 0, 0, 0, 0, 0, 0, 0, 0, 0, 1,
   4, 210, 22, 46, 0, 8, 0, 0]

/-- The record `processBuffer` publishes for `d48`. -/
def rec48 : PacketRecord :=
  { protocol := .udp, src := "fd00:0:0:0:0:0:0:2", dst := "fd00:0:0:0:0:0:0:1",
    sourcePort := 1234, destPort := 5678, payload := [] }

/-- `d48` delivered in four 12-byte chunks (spec scenario 4). -/
def chunks12 : List (List Nat) :=
  [d48.take 12, (d48.drop 12).take 12, (d48.drop 24).take 12, d48.drop 36]

/-- A sample handshake payload (the UTF-8 bytes of a small JSON text). -/
def hsPayload : List Nat := [123, 34, 97, 34, 58, 49, 125]

/-- The frame of `hsPayload` split into two chunks. -/
def hsChunks : List (List Nat) :=
  [(encodeFrame hsPayload).take 5, (encodeFrame hsPayload).drop 5]

/-- A concrete manager state before any `stop()` call. -/
def mgr0 : MgrState :=
  { cancelled := false, cleanupId := none, performCount := 0, intervalActive := true,
    connDestroyed := false, bufLen := 7, consumers := 2, tunPresent := true, nextId := 5 }

end Tuntap

namespace Tuntap

theorem processBufferAux_small (fuel : Nat) (buf : List Nat) (h : buf.length < 40) :
    processBufferAux fuel buf = ([], buf) := by
  cases fuel <;> rw [processBufferAux.eq_def] <;> simp [h]

theorem processBufferAux_succ (f : Nat) (buf : List Nat) (h : ¬ buf.length < 40) :
    processBufferAux (f + 1) buf =
      if ((buf.getD 0 0 >>> 4) &&& 15) ≠ 6 then processBufferAux f (buf.drop 1)
      else if buf.length < 40 + readU16 buf 4 then ([], buf)
      else ((buf.take (40 + readU16 buf 4), l4Record (buf.take (40 + readU16 buf 4))) ::
            (processBufferAux f (buf.drop (40 + readU16 buf 4))).1,
            (processBufferAux f (buf.drop (40 + readU16 buf 4))).2) := by
  conv_lhs => rw [processBufferAux.eq_def]
  simp [h]

theorem processBufferAux_irrel :
    ∀ (f g : Nat) (buf : List Nat), buf.length ≤ f → buf.length ≤ g →
      processBufferAux f buf = processBufferAux g buf := by
  intro f
  induction f with
  | zero =>
    intro g buf hf _
    have hb : buf = [] := List.length_eq_zero.mp (Nat.le_zero.mp hf)
    subst hb
    rw [processBufferAux_small 0 [] (by simp), processBufferAux_small g [] (by simp)]
  | succ f ih =>
    intro g buf hf hg
    by_cases h40 : buf.length < 40
    · rw [processBufferAux_small _ _ h40, processBufferAux_small _ _ h40]
    · cases g with
      | zero =>
        exact absurd (Nat.le_zero.mp hg ▸ h40) (by omega)
      | succ g' =>
        rw [processBufferAux_succ f buf h40, processBufferAux_succ g' buf h40]
        by_cases hv : ((buf.getD 0 0 >>> 4) &&& 15) ≠ 6
        · simp only [if_pos hv]
          exact ih g' (buf.drop 1) (by simp; omega) (by simp; omega)
        · simp only [if_neg hv]
          by_cases hincomp : buf.length < 40 + readU16 buf 4
          · simp [hincomp]
          · simp only [if_neg hincomp]
            rw [ih g' (buf.drop (40 + readU16 buf 4)) (by simp; omega) (by simp; omega)]

theorem processBuffer_eq (buf : List Nat) :
    processBuffer buf =
      if buf.length < 40 then ([], buf)
      else if ((buf.getD 0 0 >>> 4) &&& 15) ≠ 6 then processBuffer (buf.drop 1)
      else if buf.length < 40 + readU16 buf 4 then ([], buf)
      else ((buf.take (40 + readU16 buf 4), l4Record (buf.take (40 + readU16 buf 4))) ::
            (processBuffer (buf.drop (40 + readU16 buf 4))).1,
            (processBuffer (buf.drop (40 + readU16 buf 4))).2) := by
  unfold processBuffer
  by_cases h40 : buf.length < 40
  · rw [processBufferAux_small _ _ h40, if_pos h40]
  · rw [processBufferAux_irrel buf.length (buf.length + 1) buf (le_refl _) (Nat.le_succ _),
        processBufferAux_succ buf.length buf h40, if_neg h40]
    by_cases hv : ((buf.getD 0 0 >>> 4) &&& 15) ≠ 6
    · rw [if_pos hv, if_pos hv]
      exact processBufferAux_irrel _ _ _ (by simp only [List.length_drop]; omega) (le_refl _)
    · rw [if_neg hv, if_neg hv]
      by_cases hinc : buf.length < 40 + readU16 buf 4
      · rw [if_pos hinc, if_pos hinc]
      · rw [if_neg hinc, if_neg hinc,
            processBufferAux_irrel buf.length (buf.drop (40 + readU16 buf 4)).length _
              (by simp only [List.length_drop]; omega) (le_refl _)]

theorem processBuffer_nil : processBuffer ([] : List Nat) = ([], []) := rfl

theorem processBuffer_wf_cons (d rest : List Nat) (hwf : wfDatagram d) :
    processBuffer (d ++ rest) =
      ((d, l4Record d) :: (processBuffer rest).1, (processBuffer rest).2) := by
  obtain ⟨hlen, hver, hpl, -⟩ := hwf
  rw [processBuffer_eq]
  have hlen40 : ¬ (d ++ rest).length < 40 := by
    simp only [List.length_append]
    omega
  rw [if_neg hlen40]
  have hget0 : (d ++ rest).getD 0 0 = d.getD 0 0 := List.getD_append _ _ _ _ (by omega)
  have hget4 : (d ++ rest).getD 4 0 = d.getD 4 0 := List.getD_append _ _ _ _ (by omega)
  have hget5 : (d ++ rest).getD 5 0 = d.getD 5 0 := List.getD_append _ _ _ _ (by omega)
  have hr16 : readU16 (d ++ rest) 4 = d.length - 40 := by
    unfold readU16 at hpl ⊢
    rw [hget4, hget5]
    exact hpl
  have h40pl : 40 + readU16 (d ++ rest) 4 = d.length := by omega
  rw [if_neg (not_ne_iff.mpr (by rw [hget0]; exact hver))]
  rw [if_neg (by simp only [List.length_append]; omega)]
  rw [h40pl, List.take_left, List.drop_left]

theorem processBuffer_flatten (ds : List (List Nat)) (p : List Nat)
    (hwf : ∀ d ∈ ds, wfDatagram d) :
    processBuffer (ds.flatten ++ p) =
      (ds.map (fun d => (d, l4Record d)) ++ (processBuffer p).1, (processBuffer p).2) := by
  induction ds with
  | nil => simp
  | cons d ds ih =>
    rw [List.flatten_cons, List.append_assoc, processBuffer_wf_cons d _ (hwf d (by simp)),
        ih (fun x hx => hwf x (by simp [hx]))]
    simp

theorem processBuffer_incomplete (e q : List Nat) (hwf : wfDatagram e)
    (hq : ∃ t, q ++ t = e) (hlt : q.length < e.length) :
    processBuffer q = ([], q) := by
  obtain ⟨hlen, hver, hpl, -⟩ := hwf
  obtain ⟨t, ht⟩ := hq
  rw [processBuffer_eq]
  by_cases h40 : q.length < 40
  · rw [if_pos h40]
  · rw [if_neg h40]
    have hget0 : q.getD 0 0 = e.getD 0 0 := by
      rw [← ht]
      exact (List.getD_append _ _ _ _ (by omega)).symm
    have hget4 : q.getD 4 0 = e.getD 4 0 := by
      rw [← ht]
      exact (List.getD_append _ _ _ _ (by omega)).symm
    have hget5 : q.getD 5 0 = e.getD 5 0 := by
      rw [← ht]
      exact (List.getD_append _ _ _ _ (by omega)).symm
    have hr : readU16 q 4 = e.length - 40 := by
      unfold readU16 at hpl ⊢
      rw [hget4, hget5]
      exact hpl
    rw [if_neg (not_ne_iff.mpr (by rw [hget0]; exact hver))]
    rw [if_pos (by omega)]

theorem processBuffer_of_pre :
    ∀ (es : List (List Nat)) (p t : List Nat), (∀ d ∈ es, wfDatagram d) →
      p ++ t = es.flatten →
      ∃ es1 es2 q, es = es1 ++ es2 ∧ p = es1.flatten ++ q ∧
        processBuffer p = (es1.map (fun d => (d, l4Record d)), q) ∧
        ((es2 = [] ∧ q = []) ∨
         (∃ e es2' u, es2 = e :: es2' ∧ q.length < e.length ∧ q ++ u = e)) := by
  intro es
  induction es with
  | nil =>
    intro p t _ hpt
    have hp : p = [] := by
      have := congrArg List.length hpt
      simp only [List.length_append, List.flatten_nil, List.length_nil] at this
      exact List.length_eq_zero.mp (by omega)
    subst hp
    exact ⟨[], [], [], rfl, rfl, processBuffer_nil, Or.inl ⟨rfl, rfl⟩⟩
  | cons e es' ih =>
    intro p t hwf hpt
    rw [List.flatten_cons] at hpt
    by_cases hple : p.length < e.length
    · -- p is a proper prefix of e: the demultiplexer waits for more data
      have hpe : p = e.take p.length := by
        have h1 : (p ++ t).take p.length = p := by
          rw [List.take_append_of_le_length (le_refl _), List.take_length]
        have h2 : (e ++ es'.flatten).take p.length = e.take p.length :=
          List.take_append_of_le_length (Nat.le_of_lt hple)
        rw [hpt] at h1
        rw [h2] at h1
        exact h1.symm
      have hu : p ++ e.drop p.length = e := by
        conv_rhs => rw [← List.take_append_drop p.length e]
        rw [← hpe]
      refine ⟨[], e :: es', p, rfl, by simp, ?_, Or.inr ⟨e, es', e.drop p.length, rfl, hple, hu⟩⟩
      rw [processBuffer_incomplete e p (hwf e (by simp)) ⟨e.drop p.length, hu⟩ hple]
      simp
    · -- e is a complete leading datagram of p
      have hpe : e = p.take e.length := by
        have h1 : (e ++ es'.flatten).take e.length = e := List.take_left _ _
        have h2 : (p ++ t).take e.length = p.take e.length :=
          List.take_append_of_le_length (Nat.le_of_not_lt hple)
        rw [hpt] at h2
        rw [h1] at h2
        exact h2
      have hsplitp : p = e ++ p.drop e.length := by
        conv_lhs => rw [← List.take_append_drop e.length p]
        rw [← hpe]
      have hrest : p.drop e.length ++ t = es'.flatten := by
        have h3 : e ++ (p.drop e.length ++ t) = e ++ es'.flatten := by
          rw [← List.append_assoc, ← hsplitp, hpt]
        exact List.append_cancel_left h3
      obtain ⟨es1, es2, q, hsplit, hpeq, hpb, hqpart⟩ :=
        ih (p.drop e.length) t (fun x hx => hwf x (by simp [hx])) hrest
      refine ⟨e :: es1, es2, q, by rw [List.cons_append, hsplit], ?_, ?_, hqpart⟩
      · rw [List.flatten_cons, List.append_assoc, ← hpeq, ← hsplitp]
      · rw [hsplitp, processBuffer_wf_cons e _ (hwf e (by simp)), hpb]
        simp

theorem feedChunks_flatten :
    ∀ (chunks : List (List Nat)) (es : List (List Nat)) (buf : List Nat),
      (∀ d ∈ es, wfDatagram d) →
      buf ++ chunks.flatten = es.flatten →
      ((es = [] ∧ buf = []) ∨
       (∃ e es' u, es = e :: es' ∧ buf.length < e.length ∧ buf ++ u = e)) →
      feedChunks chunks buf = (es.map (fun d => (d, l4Record d)), []) := by
  intro chunks
  induction chunks with
  | nil =>
    intro es buf hwf heq hpart
    rcases hpart with ⟨hes, hbuf⟩ | ⟨e, es', u, hes, hlt, hu⟩
    · subst hes
      subst hbuf
      simp [feedChunks]
    · exfalso
      subst hes
      simp only [List.flatten_nil, List.append_nil, List.flatten_cons] at heq
      have := congrArg List.length heq
      simp only [List.length_append] at this
      omega
  | cons c cs ih =>
    intro es buf hwf heq hpart
    have hp : (buf ++ c) ++ cs.flatten = es.flatten := by
      rw [List.append_assoc]
      simpa [List.flatten_cons, List.append_assoc] using heq
    obtain ⟨es1, es2, q, hsplit, hpeq, hpb, hqpart⟩ :=
      processBuffer_of_pre es (buf ++ c) cs.flatten hwf hp
    have hq : q ++ cs.flatten = es2.flatten := by
      have h1 : (es1.flatten ++ q) ++ cs.flatten = es1.flatten ++ es2.flatten := by
        rw [← hpeq, hp, hsplit, List.flatten_append]
      rw [List.append_assoc] at h1
      exact List.append_cancel_left h1
    have hqpart' : (es2 = [] ∧ q = []) ∨
        (∃ e es' u, es2 = e :: es' ∧ q.length < e.length ∧ q ++ u = e) := by
      rcases hqpart with h | ⟨e, es2', u, h1, h2, h3⟩
      · exact Or.inl h
      · exact Or.inr ⟨e, es2', u, h1, h2, h3⟩
    rw [feedChunks]
    simp only [hpb]
    rw [ih es2 q (fun d hd => hwf d (by rw [hsplit]; exact List.mem_append_right _ hd)) hq hqpart']
    rw [hsplit]
    simp [List.map_append]

/-- Claim C1 — demultiplexer framing round-trip: for every finite
sequence of well-formed IPv6 datagrams (version nibble 6, payload-length
field equal to the actual payload size) and every partition of their
concatenation into chunks, appending the chunks in order to the
`TunnelManager` buffer and running `processBuffer` after each append
writes exactly those datagrams, in order, to the interface, with nothing
left in the buffer. -/
theorem demux_framing_roundtrip (ds chunks : List (List Nat))
    (hwf : ∀ d ∈ ds, wfDatagram d) (hch : chunks.flatten = ds.flatten) :
    (feedChunks chunks []).1.map Prod.fst = ds ∧ (feedChunks chunks []).2 = [] := by
  have hpart : (ds = [] ∧ ([] : List Nat) = []) ∨
      (∃ e es' u, ds = e :: es' ∧ ([] : List Nat).length < e.length ∧ [] ++ u = e) := by
    cases ds with
    | nil => exact Or.inl ⟨rfl, rfl⟩
    | cons e es' =>
      refine Or.inr ⟨e, es', e, rfl, ?_, by simp⟩
      have := (hwf e (by simp)).1
      simp only [List.length_nil]
      omega
  have hmain := feedChunks_flatten chunks ds [] hwf (by simpa using hch) hpart
  rw [hmain]
  refine ⟨?_, rfl⟩
  rw [List.map_map]
  have hcomp : (Prod.fst ∘ fun d : List Nat => (d, l4Record d)) = id := rfl
  rw [hcomp, List.map_id]

/-- Witness for C1: the concrete 48-byte UDP datagram delivered in four
12-byte chunks is written exactly once with an empty residual buffer. -/
theorem demux_framing_roundtrip_witness :
    (∀ d ∈ [d48], wfDatagram d) ∧ chunks12.flatten = [d48].flatten ∧
    ((feedChunks chunks12 []).1.map Prod.fst = [d48] ∧ (feedChunks chunks12 []).2 = []) :=
  ⟨by decide, by decide, demux_framing_roundtrip [d48] chunks12 (by decide) (by decide)⟩

/-- Claim C8 — L4 record emission: a single well-formed datagram is
written to the interface exactly once; a UDP datagram (next header 17)
with payload ≥ 8 bytes publishes exactly one UDP record with the ports
read big-endian from the first four payload bytes and the payload after
the 8-byte UDP header; a TCP datagram (next header 6) with payload ≥ 20
bytes and payload length ≥ `(payload[12] >> 4) * 4` publishes the
analogous TCP record; in every other case the datagram is written but no
record is published. -/
theorem l4_record_emission (d : List Nat) (hwf : wfDatagram d) :
    processBuffer d = ([(d, l4Record d)], []) ∧
    (d.getD 6 0 = 17 → 8 ≤ (d.drop 40).length →
      l4Record d = some { protocol := .udp,
                          src := formatIPv6Address ((d.drop 8).take 16),
                          dst := formatIPv6Address ((d.drop 24).take 16),
                          sourcePort := readU16 (d.drop 40) 0,
                          destPort := readU16 (d.drop 40) 2,
                          payload := (d.drop 40).drop 8 }) ∧
    (d.getD 6 0 = 17 → (d.drop 40).length < 8 → l4Record d = none) ∧
    (d.getD 6 0 = 6 → 20 ≤ (d.drop 40).length →
      40 + (d.getD 52 0 >>> 4) * 4 ≤ d.length →
      l4Record d = some { protocol := .tcp,
                          src := formatIPv6Address ((d.drop 8).take 16),
                          dst := formatIPv6Address ((d.drop 24).take 16),
                          sourcePort := readU16 d 40,
                          destPort := readU16 d 42,
                          payload := d.drop (40 + (d.getD 52 0 >>> 4) * 4) }) ∧
    (d.getD 6 0 = 6 → ((d.drop 40).length < 20 ∨ d.length < 40 + (d.getD 52 0 >>> 4) * 4) →
      l4Record d = none) ∧
    (d.getD 6 0 ≠ 17 → d.getD 6 0 ≠ 6 → l4Record d = none) := by
  have h40 := hwf.1
  refine ⟨?_, ?_, ?_, ?_, ?_, ?_⟩
  · have h := processBuffer_wf_cons d [] hwf
    rw [List.append_nil] at h
    rw [h, processBuffer_nil]
  · intro h17 h8
    simp only [l4Record]
    rw [if_pos h17, if_neg (Nat.not_lt.mpr h8)]
  · intro h17 h8
    simp only [l4Record]
    rw [if_pos h17, if_pos h8]
  · intro h6 h20 hthl
    simp only [l4Record]
    rw [if_neg (by rw [h6]; decide), if_pos h6]
    rw [List.length_drop] at h20
    rw [if_neg (by omega), if_neg (Nat.not_lt.mpr hthl)]
  · intro h6 hshort
    simp only [l4Record]
    rw [if_neg (by rw [h6]; decide), if_pos h6]
    rw [List.length_drop] at hshort
    by_cases hs : d.length < 40 + 20
    · rw [if_pos hs]
    · rw [if_neg hs, if_pos (by omega)]
  · intro h17 h6
    simp only [l4Record]
    rw [if_neg h17, if_neg h6]

/-- Witness for C8: the concrete UDP datagram `d48` is emitted once with
the expected record (ports 1234 → 5678, empty payload). -/
theorem l4_record_emission_witness :
    wfDatagram d48 ∧
    processBuffer d48 = ([(d48, l4Record d48)], []) ∧
    l4Record d48 = some { protocol := .udp,
                          src := formatIPv6Address ((d48.drop 8).take 16),
                          dst := formatIPv6Address ((d48.drop 24).take 16),
                          sourcePort := readU16 (d48.drop 40) 0,
                          destPort := readU16 (d48.drop 40) 2,
                          payload := (d48.drop 40).drop 8 } ∧
    l4Record d48 = some rec48 :=
  ⟨by decide, (l4_record_emission d48 (by decide)).1,
   (l4_record_emission d48 (by decide)).2.1 (by decide) (by decide), by decide⟩

end Tuntap

namespace Tuntap

theorem processBufferAux_emits :
    ∀ (fuel : Nat) (buf : List Nat) (e : Emit), e ∈ (processBufferAux fuel buf).1 →
      40 ≤ e.1.length ∧ e.2 = l4Record e.1 := by
  intro fuel
  induction fuel with
  | zero =>
    intro buf e he
    have h0 : processBufferAux 0 buf = ([], buf) := by
      by_cases h : buf.length < 40
      · exact processBufferAux_small 0 buf h
      · rw [processBufferAux.eq_def]
        simp [h]
    rw [h0] at he
    exact absurd he (List.not_mem_nil e)
  | succ f ih =>
    intro buf e he
    by_cases h40 : buf.length < 40
    · rw [processBufferAux_small _ _ h40] at he
      exact absurd he (List.not_mem_nil e)
    · rw [processBufferAux_succ f buf h40] at he
      by_cases hv : ((buf.getD 0 0 >>> 4) &&& 15) ≠ 6
      · rw [if_pos hv] at he
        exact ih _ _ he
      · rw [if_neg hv] at he
        by_cases hinc : buf.length < 40 + readU16 buf 4
        · rw [if_pos hinc] at he
          exact absurd he (List.not_mem_nil e)
        · rw [if_neg hinc] at he
          rcases List.mem_cons.mp he with hhead | htail
          · subst hhead
            refine ⟨?_, rfl⟩
            rw [List.length_take]
            omega
          · exact ih _ _ htail

theorem processBuffer_emits (buf : List Nat) (e : Emit) (he : e ∈ (processBuffer buf).1) :
    40 ≤ e.1.length ∧ e.2 = l4Record e.1 :=
  processBufferAux_emits buf.length buf e he

theorem l4Record_addr (pkt : List Nat) (r : PacketRecord) (h : l4Record pkt = some r) :
    r.src = formatIPv6Address ((pkt.drop 8).take 16) ∧
    r.dst = formatIPv6Address ((pkt.drop 24).take 16) := by
  simp only [l4Record] at h
  split_ifs at h
  all_goals rw [Option.some.injEq] at h
  all_goals subst h
  all_goals exact ⟨rfl, rfl⟩

theorem formatIPv6Address_len16 (l : List Nat) (h : l.length = 16) :
    formatIPv6Address l =
      joinColon ((List.range 8).map (fun i => jsHexStr (readU16 l (2 * i)))) := by
  unfold formatIPv6Address
  rw [if_neg (by omega)]

theorem joinColon8_has_colon (f : Nat → String) :
    ':' ∈ (joinColon ((List.range 8).map f)).data := by
  have h : (List.range 8).map f = [f 0, f 1, f 2, f 3, f 4, f 5, f 6, f 7] := rfl
  rw [h]
  show ':' ∈ (f 0 ++ ":" ++ joinColon [f 1, f 2, f 3, f 4, f 5, f 6, f 7]).data
  rw [String.data_append, String.data_append]
  exact List.mem_append_left _ (List.mem_append_right _ (by decide))

theorem sentinel_no_colon : ':' ∉ "invalid-address".data := by decide

/-- Claim C10 — address stringification and sentinel unreachability:
every record published by `processBuffer` carries `src`/`dst` strings
that are the eight colon-joined big-endian 16-bit groups of the
fixed-offset address slices in lowercase hex without padding or
compression; both slices have exactly 16 bytes (the emitted packet has at
least 40), so the `"invalid-address"` sentinel of `formatIPv6Address` is
never produced. -/
theorem format_address_sentinel_unreachable (buf pkt : List Nat)
    (orec : Option PacketRecord) (r : PacketRecord)
    (hmem : (pkt, orec) ∈ (processBuffer buf).1) (hrec : orec = some r) :
    40 ≤ pkt.length ∧
    ((pkt.drop 8).take 16).length = 16 ∧
    ((pkt.drop 24).take 16).length = 16 ∧
    r.src = joinColon ((List.range 8).map
      (fun i => jsHexStr (readU16 ((pkt.drop 8).take 16) (2 * i)))) ∧
    r.dst = joinColon ((List.range 8).map
      (fun i => jsHexStr (readU16 ((pkt.drop 24).take 16) (2 * i)))) ∧
    r.src ≠ "invalid-address" ∧
    r.dst ≠ "invalid-address" := by
  obtain ⟨hlen, hl4⟩ := processBuffer_emits buf (pkt, orec) hmem
  simp only at hlen hl4
  rw [hrec] at hl4
  obtain ⟨hsrc, hdst⟩ := l4Record_addr pkt r hl4.symm
  have hs8 : ((pkt.drop 8).take 16).length = 16 := by
    rw [List.length_take, List.length_drop]
    omega
  have hs24 : ((pkt.drop 24).take 16).length = 16 := by
    rw [List.length_take, List.length_drop]
    omega
  have hsrc' : r.src = joinColon ((List.range 8).map
      (fun i => jsHexStr (readU16 ((pkt.drop 8).take 16) (2 * i)))) := by
    rw [hsrc, formatIPv6Address_len16 _ hs8]
  have hdst' : r.dst = joinColon ((List.range 8).map
      (fun i => jsHexStr (readU16 ((pkt.drop 24).take 16) (2 * i)))) := by
    rw [hdst, formatIPv6Address_len16 _ hs24]
  refine ⟨hlen, hs8, hs24, hsrc', hdst', ?_, ?_⟩
  · rw [hsrc']
    intro hcontra
    have hc := joinColon8_has_colon (fun i => jsHexStr (readU16 ((pkt.drop 8).take 16) (2 * i)))
    rw [hcontra] at hc
    exact sentinel_no_colon hc
  · rw [hdst']
    intro hcontra
    have hc := joinColon8_has_colon (fun i => jsHexStr (readU16 ((pkt.drop 24).take 16) (2 * i)))
    rw [hcontra] at hc
    exact sentinel_no_colon hc

/-- Witness for C10: the record emitted for `d48` has non-sentinel
colon-joined addresses. -/
theorem format_address_sentinel_unreachable_witness :
    ((d48, l4Record d48) ∈ (processBuffer d48).1) ∧ l4Record d48 = some rec48 ∧
    rec48.src ≠ "invalid-address" ∧ rec48.dst ≠ "invalid-address" :=
  ⟨by decide, by decide,
   (format_address_sentinel_unreachable d48 d48 (l4Record d48) rec48
      (by decide) (by decide)).2.2.2.2.2.1,
   (format_address_sentinel_unreachable d48 d48 (l4Record d48) rec48
      (by decide) (by decide)).2.2.2.2.2.2⟩

theorem encodeFrame_eq (p : List Nat) :
    encodeFrame p = 67 :: 68 :: 84 :: 117 :: 110 :: 110 :: 101 :: 108 ::
      ((p.length >>> 8) &&& 255) :: (p.length &&& 255) :: p := rfl

theorem encodeFrame_length (p : List Nat) : (encodeFrame p).length = 10 + p.length := by
  rw [encodeFrame_eq]
  simp
  omega

theorem encodeFrame_readU16 (p : List Nat) (hlen : p.length ≤ 65535) :
    readU16 (encodeFrame p) 8 = p.length := by
  have h : readU16 (encodeFrame p) 8 =
      256 * ((p.length >>> 8) &&& 255) + (p.length &&& 255) := rfl
  rw [h, Nat.shiftRight_eq_div_pow, Nat.and_pow_two_sub_one_eq_mod _ 8,
      Nat.and_pow_two_sub_one_eq_mod _ 8]
  have h2 : p.length / 2 ^ 8 % 2 ^ 8 = p.length / 2 ^ 8 := by
    have : p.length / 2 ^ 8 ≤ 255 := by omega
    omega
  rw [h2]
  omega

theorem encodeFrame_drop10 (p : List Nat) : (encodeFrame p).drop 10 = p := rfl

theorem hsStep_not_listening {α : Type} (parse : List Nat → Option α) (c : List Nat)
    (s : HsState α) (h : s.listening = false) : hsStep parse (.dataEv c) s = s := by
  simp [hsStep, h]

theorem hsFold_not_listening {α : Type} (parse : List Nat → Option α) :
    ∀ (cs : List (List Nat)) (s : HsState α), s.listening = false →
      List.foldl (fun s c => hsStep parse (.dataEv c) s) s cs = s := by
  intro cs
  induction cs with
  | nil => intro s _; rfl
  | cons c cs ih =>
    intro s h
    rw [List.foldl_cons, hsStep_not_listening parse c s h, ih s h]

theorem hsFold_resolves {α : Type} (parse : List Nat → Option α) (j : α) (p : List Nat)
    (hp : parse p = some j) (hlen : p.length ≤ 65535) :
    ∀ (cs : List (List Nat)) (b : List Nat),
      b.length < (encodeFrame p).length →
      b ++ cs.flatten = encodeFrame p →
      (List.foldl (fun s c => hsStep parse (.dataEv c) s) ⟨b, true, true, none⟩ cs).outcome
        = some (.resolvedJson j) := by
  intro cs
  induction cs with
  | nil =>
    intro b hblt hbeq
    exfalso
    simp only [List.flatten_nil, List.append_nil] at hbeq
    rw [hbeq] at hblt
    omega
  | cons c cs ih =>
    intro b hblt hbeq
    rw [List.foldl_cons]
    set b' := b ++ c with hb'
    have hpre : b' ++ cs.flatten = encodeFrame p := by
      rw [hb', List.append_assoc]
      simpa [List.flatten_cons] using hbeq
    have hble : b'.length ≤ (encodeFrame p).length := by
      have := congrArg List.length hpre
      simp only [List.length_append] at this
      omega
    have hstep : hsStep parse (.dataEv c) ⟨b, true, true, none⟩ =
        if b'.length < 10 then ⟨b', true, true, none⟩
        else if b'.take 8 ≠ cdMagicBytes then ⟨b', false, false, some .invalidFormat⟩
        else if 10 + readU16 b' 8 ≤ b'.length then
          (match parse ((b'.take (10 + readU16 b' 8)).drop 10) with
           | some a => ⟨b', false, false, some (.resolvedJson a)⟩
           | none => ⟨b', false, false, some .invalidJson⟩)
        else ⟨b', true, true, none⟩ := by
      simp only [hsStep, hsCleanup]
      rfl
    by_cases h10 : b'.length < 10
    · rw [hstep, if_pos h10]
      exact ih b' (by rw [encodeFrame_length]; omega) hpre
    · have hmagic : b'.take 8 = cdMagicBytes := by
        have h1 : (b' ++ cs.flatten).take 8 = b'.take 8 :=
          List.take_append_of_le_length (by omega)
        rw [hpre] at h1
        rw [← h1]
        rfl
      have hr16 : readU16 b' 8 = p.length := by
        have h8 : (b' ++ cs.flatten).getD 8 0 = b'.getD 8 0 := List.getD_append _ _ _ _ (by omega)
        have h9 : (b' ++ cs.flatten).getD 9 0 = b'.getD 9 0 := List.getD_append _ _ _ _ (by omega)
        have heq : readU16 b' 8 = readU16 (encodeFrame p) 8 := by
          unfold readU16
          rw [← h8, ← h9, hpre]
        rw [heq, encodeFrame_readU16 p hlen]
      rw [hstep, if_neg h10, if_neg (not_ne_iff.mpr hmagic), hr16]
      by_cases hC : 10 + p.length ≤ b'.length
      · rw [if_pos hC]
        have hfl : cs.flatten = [] := by
          have hlen2 := congrArg List.length hpre
          rw [encodeFrame_length] at hlen2
          simp only [List.length_append] at hlen2
          rw [encodeFrame_length] at hble
          exact List.length_eq_zero.mp (by omega)
        have hbf : b' = encodeFrame p := by
          rw [hfl, List.append_nil] at hpre
          exact hpre
        have hpay : (b'.take (10 + p.length)).drop 10 = p := by
          rw [hbf, ← encodeFrame_length, List.take_length, encodeFrame_drop10]
        rw [hpay, hp]
        exact congrArg HsState.outcome
          (hsFold_not_listening parse cs ⟨b', false, false, some (.resolvedJson j)⟩ rfl)
      · rw [if_neg hC]
        exact ih b' (by rw [encodeFrame_length]; omega) hpre

/-- Claim C5 — handshake framing round-trip: the encoder produces exactly
the 8 ASCII magic bytes, the 2-byte big-endian payload length, then the
payload (total `10 + len` bytes); and a decoder fed that frame in any
chunking resolves to the value the JSON parser recovers from the exact
payload bytes — the original value, by the `parse p = some j`
stringify/parse contract. -/
theorem handshake_frame_roundtrip {α : Type} (parse : List Nat → Option α) (j : α)
    (p : List Nat) (chunks : List (List Nat))
    (hlen : p.length ≤ 65535) (hp : parse p = some j)
    (hch : chunks.flatten = encodeFrame p) :
    (encodeFrame p).length = 10 + p.length ∧
    encodeFrame p = cdMagicBytes ++ [p.length / 256, p.length % 256] ++ p ∧
    (runHandshake parse chunks).outcome = some (.resolvedJson j) := by
  refine ⟨encodeFrame_length p, ?_, ?_⟩
  · rw [encodeFrame_eq]
    have h1 : p.length >>> 8 &&& 255 = p.length / 256 := by
      rw [Nat.shiftRight_eq_div_pow, Nat.and_pow_two_sub_one_eq_mod _ 8]
      have : p.length / 2 ^ 8 ≤ 255 := by omega
      omega
    have h2 : p.length &&& 255 = p.length % 256 := Nat.and_pow_two_sub_one_eq_mod _ 8
    rw [h1, h2]
    rfl
  · unfold runHandshake hsInit
    exact hsFold_resolves parse j p hp hlen chunks []
      (by rw [encodeFrame_length]; simp) (by simpa using hch)

/-- Witness for C5: a 7-byte payload framed and delivered in two chunks
resolves to the original payload under the identity parser. -/
theorem handshake_frame_roundtrip_witness :
    hsPayload.length ≤ 65535 ∧
    (some : List Nat → Option (List Nat)) hsPayload = some hsPayload ∧
    hsChunks.flatten = encodeFrame hsPayload ∧
    ((encodeFrame hsPayload).length = 10 + hsPayload.length ∧
     encodeFrame hsPayload =
       cdMagicBytes ++ [hsPayload.length / 256, hsPayload.length % 256] ++ hsPayload ∧
     (runHandshake (some : List Nat → Option (List Nat)) hsChunks).outcome
       = some (.resolvedJson hsPayload)) :=
  ⟨by decide, rfl, by decide,
   handshake_frame_roundtrip (some : List Nat → Option (List Nat)) hsPayload hsPayload hsChunks
     (by decide) rfl (by decide)⟩

/-- Claim C6 — handshake failure modes: while the listeners are attached
and the timer pending, a data chunk whose first 8 accumulated bytes
differ from `'CDTunnel'` (checked once ≥ 10 bytes) rejects with the
protocol error `'Invalid packet format'`; a complete frame whose payload
fails to JSON-parse rejects with `'Invalid JSON response'`; a stream end
rejects with the connection-closed protocol error; the 30-second timer
(`handshakeTimeoutMs = 30000`) firing rejects with the handshake
timeout; and every one of these failure paths runs `cleanup`, removing
the data/error/end listeners and clearing the timer. -/
theorem handshake_failure_modes {α : Type} (parse : List Nat → Option α)
    (s : HsState α) (c : List Nat) (hl : s.listening = true) (ht : s.timerActive = true) :
    handshakeTimeoutMs = 30000 ∧
    (10 ≤ (s.buffer ++ c).length → (s.buffer ++ c).take 8 ≠ cdMagicBytes →
      hsStep parse (.dataEv c) s = ⟨s.buffer ++ c, false, false, some .invalidFormat⟩) ∧
    (10 ≤ (s.buffer ++ c).length → (s.buffer ++ c).take 8 = cdMagicBytes →
      10 + readU16 (s.buffer ++ c) 8 ≤ (s.buffer ++ c).length →
      parse (((s.buffer ++ c).take (10 + readU16 (s.buffer ++ c) 8)).drop 10) = none →
      hsStep parse (.dataEv c) s = ⟨s.buffer ++ c, false, false, some .invalidJson⟩) ∧
    hsStep parse .endEv s = ⟨s.buffer, false, false, some .connClosed⟩ ∧
    hsStep parse .timeoutEv s = ⟨s.buffer, false, false, some .timedOut⟩ := by
  obtain ⟨b, l, t, o⟩ := s
  simp only at hl ht ⊢
  subst hl
  subst ht
  have hstep : hsStep parse (.dataEv c) ⟨b, true, true, o⟩ =
      if (b ++ c).length < 10 then ⟨b ++ c, true, true, o⟩
      else if (b ++ c).take 8 ≠ cdMagicBytes then ⟨b ++ c, false, false, some .invalidFormat⟩
      else if 10 + readU16 (b ++ c) 8 ≤ (b ++ c).length then
        (match parse (((b ++ c).take (10 + readU16 (b ++ c) 8)).drop 10) with
         | some a => ⟨b ++ c, false, false, some (.resolvedJson a)⟩
         | none => ⟨b ++ c, false, false, some .invalidJson⟩)
      else ⟨b ++ c, true, true, o⟩ := by
    simp only [hsStep, hsCleanup]
    rfl
  refine ⟨rfl, ?_, ?_, ?_, ?_⟩
  · intro h10 hmag
    rw [hstep, if_neg (by omega), if_pos hmag]
  · intro h10 hmag htot hparse
    rw [hstep, if_neg (by omega), if_neg (not_ne_iff.mpr hmag), if_pos htot, hparse]
  · simp [hsStep, hsCleanup]
  · simp [hsStep, hsCleanup]

/-- Witness for C6: from the initial handshake state, a 10-byte chunk
with a wrong magic rejects with the format error; a complete frame under
the always-failing parser rejects with the JSON error; `end` and the
timer firing reject with their respective errors; all four leave the
listeners removed and the timer cleared. -/
theorem handshake_failure_modes_witness :
    hsStep noParse (.dataEv [0, 1, 2, 3, 4, 5, 6, 7, 8, 9]) (hsInit (List Nat)) =
      ⟨[0, 1, 2, 3, 4, 5, 6, 7, 8, 9], false, false, some .invalidFormat⟩ ∧
    hsStep noParse (.dataEv (encodeFrame hsPayload)) (hsInit (List Nat)) =
      ⟨encodeFrame hsPayload, false, false, some .invalidJson⟩ ∧
    hsStep noParse .endEv (hsInit (List Nat)) = ⟨[], false, false, some .connClosed⟩ ∧
    hsStep noParse .timeoutEv (hsInit (List Nat)) = ⟨[], false, false, some .timedOut⟩ ∧
    handshakeTimeoutMs = 30000 :=
  ⟨(handshake_failure_modes noParse (hsInit (List Nat)) [0, 1, 2, 3, 4, 5, 6, 7, 8, 9]
      rfl rfl).2.1 (by decide) (by decide),
   (handshake_failure_modes noParse (hsInit (List Nat)) (encodeFrame hsPayload)
      rfl rfl).2.2.1 (by decide) (by decide) (by decide) rfl,
   (handshake_failure_modes noParse (hsInit (List Nat)) [] rfl rfl).2.2.2.1,
   (handshake_failure_modes noParse (hsInit (List Nat)) [] rfl rfl).2.2.2.2,
   rfl⟩

end Tuntap

namespace Tuntap

/-- Counterexample to C7 as stated: a kernel return of 0 bytes (which is
"4 or fewer") with a non-would-block errno makes the Darwin read return
a `Napi::Error` value, not an empty buffer — `bytes_read <= 0` reaches
the `return Napi::Error::New(env, strerror(errno)).Value()` path. -/
theorem darwin_read_zero_not_empty :
    darwinRead (.bytes []) false = .errorValue ∧
    darwinRead (.bytes []) false ≠ .empty := by decide

/-- Claim C7 (amended) — Darwin framing round-trip: a kernel return of
more than 4 bytes is returned with the 4 leading protocol-family bytes
stripped; a successful return of 1–4 bytes yields an empty buffer; a
return of ≤ 0 bytes yields an empty buffer exactly when errno is
`EAGAIN`/`EWOULDBLOCK` and an error value otherwise; write prepends the
4-byte big-endian `AF_INET6` (= 30) header, and a fully written payload
reports exactly the payload length. -/
theorem darwin_framing_amended (bs p : List Nat) (e : Bool) :
    (4 < bs.length → darwinRead (.bytes bs) e = .data (bs.drop 4)) ∧
    (1 ≤ bs.length → bs.length ≤ 4 → darwinRead (.bytes bs) e = .empty) ∧
    darwinRead (.bytes []) true = .empty ∧
    darwinRead .failed true = .empty ∧
    darwinRead (.bytes []) false = .errorValue ∧
    darwinRead .failed false = .errorValue ∧
    darwinWriteWire p = [0, 0, 0, 30] ++ p ∧
    darwinWriteResult (some (p.length + 4)) = .count p.length := by
  refine ⟨?_, ?_, rfl, rfl, rfl, rfl, rfl, ?_⟩
  · intro h
    simp [darwinRead, Nat.ne_of_gt (by omega : 0 < bs.length), h]
  · intro h1 h4
    have hne : bs.length ≠ 0 := by omega
    have hnot : ¬ 4 < bs.length := by omega
    simp [darwinRead, hne, hnot]
  · by_cases hp : 4 < p.length + 4
    · simp [darwinWriteResult, hp]
    · have h0 : p.length = 0 := by omega
      simp [darwinWriteResult, hp, h0]

/-- Witness for the amended C7: a 6-byte kernel return is stripped to its
last 2 bytes, a 3-byte return is empty, and a full write of a 2-byte
payload goes on the wire with the `[0,0,0,30]` header and reports 2. -/
theorem darwin_framing_amended_witness :
    4 < ([0, 0, 0, 30, 96, 1] : List Nat).length ∧
    darwinRead (.bytes [0, 0, 0, 30, 96, 1]) false = .data [96, 1] ∧
    (1 ≤ ([0, 0, 30] : List Nat).length ∧ ([0, 0, 30] : List Nat).length ≤ 4) ∧
    darwinRead (.bytes [0, 0, 30]) false = .empty ∧
    darwinWriteWire [96, 1] = [0, 0, 0, 30] ++ [96, 1] ∧
    darwinWriteResult (some (([96, 1] : List Nat).length + 4)) =
      .count ([96, 1] : List Nat).length :=
  ⟨by decide,
   (darwin_framing_amended [0, 0, 0, 30, 96, 1] [96, 1] false).1 (by decide),
   ⟨by decide, by decide⟩,
   (darwin_framing_amended [0, 0, 30] [96, 1] false).2.1 (by decide) (by decide),
   (darwin_framing_amended [0, 0, 30] [96, 1] false).2.2.2.2.2.2.1,
   (darwin_framing_amended [0, 0, 30] [96, 1] false).2.2.2.2.2.2.2⟩

/-- Claim C2 evaluated on the code — `TunTap.configure` performs no
validation: on an open device it immediately hands the interpolated
address and MTU to `execPromise`, both for the non-IPv6 address
`"not-an-ip"` with MTU 1500 and for the valid address `"fd00::3"` with
the out-of-range MTU 100 (and likewise on Darwin); no invalid-argument
rejection exists in this code path. -/
theorem configure_executes_without_validation :
    configureCmds true .linux "tun0" "not-an-ip" 1500 =
      .ok ["sudo ip -6 addr add not-an-ip/64 dev tun0",
           "sudo ip link set dev tun0 up mtu 1500"] ∧
    configureCmds true .linux "tun0" "fd00::3" 100 =
      .ok ["sudo ip -6 addr add fd00::3/64 dev tun0",
           "sudo ip link set dev tun0 up mtu 100"] ∧
    configureCmds true .darwin "utun3" "not-an-ip" 1500 =
      .ok ["sudo ifconfig utun3 inet6 not-an-ip prefixlen 64 up",
           "sudo ifconfig utun3 mtu 1500"] :=
  ⟨rfl, rfl, rfl⟩

/-- Claim C3 evaluated on the code — `open(); close(); open()` on a
`TunTap` succeeds and acquires a kernel device a second time: the
wrapper clears `isOpen` on close and `open()` only checks `isOpen`,
so a closed handle is reopened rather than failing. -/
theorem reopen_after_close_reacquires :
    (tsOpen (tsClose (tsOpen tsInit).1).1).1.isOpenTS = true ∧
    (tsOpen (tsClose (tsOpen tsInit).1).1).2 = true ∧
    (tsOpen (tsClose (tsOpen tsInit).1).1).1.dev.acquisitions = 2 := by decide

/-- Claim C4 evaluated on the code — a `getPacketStream` iterator that is
awaiting on an empty queue when `stop()` runs stays blocked: `stop()`
sets cancellation and clears the consumers but never resolves the
pending resolver, so the generator never reaches its loop check or its
`finally`; later packets are not fanned out (the consumer set is empty)
and a repeated `stop()` changes nothing. An iterator started after
cancellation does terminate, showing termination is reachable only
through the loop check. -/
theorem stream_blocked_after_stop :
    (runPull [.startIter, .stopCall] pullInit).phase = .blocked ∧
    (runPull [.startIter, .stopCall] pullInit).phase ≠ .done ∧
    (runPull [.startIter, .stopCall] pullInit).cancelled = true ∧
    runPull [.startIter, .stopCall, .packetArrives 1, .packetArrives 2, .stopCall] pullInit
      = runPull [.startIter, .stopCall] pullInit ∧
    (runPull [.stopCall, .startIter] pullInit).phase = .done := by decide

theorem stopTimes_cached (pid : Nat) :
    ∀ (m : Nat) (t : MgrState), t.cleanupId = some pid →
      stopTimes m t = (t, List.replicate m pid) := by
  intro m
  induction m with
  | zero => intro t _; rfl
  | succ m ih =>
    intro t h
    have hc : stopCallM t = (t, pid) := by
      unfold stopCallM
      rw [h]
    rw [stopTimes, hc, ih t h]
    rfl

/-- Claim C9 — idempotent single-shot stop: calling `stop()` `n ≥ 1`
times on a manager with no cached cleanup promise runs `_performStop`
exactly once, hands every caller the same promise, leaves the
cancellation flag set, and no manager operation ever clears the
cancellation flag once set. -/
theorem stop_idempotent_single_shot (s : MgrState) (n : Nat)
    (hfresh : s.cleanupId = none) (hcount : s.performCount = 0) (hn : 1 ≤ n) :
    (stopTimes n s).1.performCount = 1 ∧
    (stopTimes n s).2 = List.replicate n s.nextId ∧
    (stopTimes n s).1.cancelled = true ∧
    (∀ op t, t.cancelled = true → (mgrStep op t).cancelled = true) := by
  obtain ⟨m, hm⟩ : ∃ m, n = m + 1 := ⟨n - 1, by omega⟩
  subst hm
  have hc : stopCallM s =
      ({ performStop s with cleanupId := some s.nextId, nextId := s.nextId + 1 }, s.nextId) := by
    unfold stopCallM
    rw [hfresh]
  have hcached := stopTimes_cached s.nextId m
    { performStop s with cleanupId := some s.nextId, nextId := s.nextId + 1 } rfl
  rw [stopTimes, hc, hcached]
  refine ⟨by simp [performStop, hcount], rfl, by simp [performStop], ?_⟩
  intro op t h
  cases op with
  | stopOp =>
    obtain ⟨tc, tid, tpc, tia, tcd, tbl, tcons, ttp, tni⟩ := t
    simp only at h
    cases tid <;> simp [mgrStep, stopCallM, performStop, h]
  | dataArrives n => simp [mgrStep, h]
  | pollTick => exact h
  | addConsumerOp => simpa [mgrStep] using h
  | removeConsumerOp => simpa [mgrStep] using h

/-- Witness for C9: three consecutive `stop()` calls on a concrete fresh
manager perform one cleanup and all receive promise id 5. -/
theorem stop_idempotent_single_shot_witness :
    (mgr0.cleanupId = none ∧ mgr0.performCount = 0 ∧ 1 ≤ 3) ∧
    (stopTimes 3 mgr0).1.performCount = 1 ∧
    (stopTimes 3 mgr0).2 = List.replicate 3 mgr0.nextId ∧
    (stopTimes 3 mgr0).1.cancelled = true :=
  ⟨⟨rfl, rfl, by decide⟩,
   (stop_idempotent_single_shot mgr0 3 rfl rfl (by decide)).1,
   (stop_idempotent_single_shot mgr0 3 rfl rfl (by decide)).2.1,
   (stop_idempotent_single_shot mgr0 3 rfl rfl (by decide)).2.2.1⟩

end Tuntap
